import Mathlib

/-!
Verification of the data-loading subsystem in `nougat/utils/dataset.py`.

The Python source is shallowly embedded: images are flattened integer grids
(`List Int`), dicts are association lists, exceptions are explicit result
constructors, the stochastic pieces (Python `random`) are driven by explicit
oracle streams, and file-system collaborators (JSON parser, image decoder,
page rasterizer, tokenizer) are abstract function fields of an environment
record, exactly as the design treats them as external collaborators.
-/

/-- A decoded page image: a flattened grid of integer pixel values.
`img * 0` in the source (torch elementwise multiply) becomes a pointwise map. -/
abbrev Image := List Int

/-- One element of a batch handed to `LazyDataset.ignore_none_collate`:
`(image-or-None, document-name-or-empty-string)`. -/
abbrev BatchItem := Option Image × String

/-- Outcome of the collate call: an uncaught exception (`IndexError` from
`_batch[-1]` on an empty list, `TypeError` from `None * 0`, or a shape
mismatch in `default_collate`), the empty-batch signal `(None, None)`, or the
assembled batch (the `_batch` list that `default_collate` stacks). -/
inductive CollateResult
  | crash
  | empty
  | batch (b : List (Image × String))
deriving DecidableEq

namespace LazyDataset

/-- One iteration of the `for i, x in enumerate(batch)` loop body of
`LazyDataset.ignore_none_collate`, acting on the accumulator `_batch`.
`full` is the original `batch` (the loop body reads `len(batch)` and
`batch[1]`). `Except.error ()` models an uncaught exception:
`_batch[-1]` on an empty `_batch` (IndexError) or `batch[1][0] * 0` with
`batch[1][0]` being `None` (TypeError). -/
def collateStep (full : List BatchItem) (i : Nat) (x : BatchItem)
    (acc : List (Image × String)) : Except Unit (List (Image × String)) :=
  match x with
  | (some img, name) => .ok (acc ++ [(img, name)])
  | (none, name) =>
    if name = "" then .ok acc
    else if 0 < i then
      match acc.getLast? with
      | some last => .ok (acc.dropLast ++ [(last.1, name)])
      | none => .error ()
    else if 1 < full.length then
      match full.get? 1 with
      | some (some img1, _) => .ok (acc ++ [(img1.map (fun v => v * 0), name)])
      | _ => .error ()
    else .ok acc

/-- The whole enumerate loop of `ignore_none_collate`, starting at raw index
`i` with the remaining items `xs` and accumulator `acc`. -/
def collateGo (full : List BatchItem) : Nat → List BatchItem → List (Image × String) →
    Except Unit (List (Image × String))
  | _, [], acc => .ok acc
  | i, x :: xs, acc =>
    match collateStep full i x acc with
    | .error e => .error e
    | .ok acc1 => collateGo full (i + 1) xs acc1

/-- State of the accumulator `_batch` after the loop has processed the first
`n` raw items of `full`. -/
def collateUpTo (full : List BatchItem) (n : Nat) : Except Unit (List (Image × String)) :=
  collateGo full 0 (full.take n) []

/-- `torch.utils.data.dataloader.default_collate` stacks the image tensors;
it succeeds exactly when all surviving images have the same shape. -/
def sameShapes : List (Image × String) → Bool
  | [] => true
  | (img, _) :: rest => rest.all (fun p => p.1.length == img.length)

/-- `LazyDataset.ignore_none_collate` on a (non-`None`) batch list. -/
def ignore_none_collate (batch : List BatchItem) : CollateResult :=
  match collateGo batch 0 batch [] with
  | .error _ => .crash
  | .ok [] => .empty
  | .ok b => if sameShapes b then .batch b else .crash

/-- `_batch[-1] = (_batch[-1][0], name)`: keep the last slot's image, replace
its name. Defined on possibly-empty lists for statement convenience. -/
def replaceLastName (acc : List (Image × String)) (name : String) : List (Image × String) :=
  acc.dropLast ++ (acc.getLast?.map (fun p => (p.1, name))).toList

end LazyDataset

example : LazyDataset.ignore_none_collate [(some [1], ""), (none, "doc1"), (some [2], "")] =
    .batch [([1], "doc1"), ([2], "")] := by decide

example : LazyDataset.ignore_none_collate [(none, "doc1"), (some [2], "")] =
    .batch [([0], "doc1"), ([2], "")] := by decide

example : LazyDataset.ignore_none_collate [(none, ""), (none, "doc1"), (some [2], "")] =
    .crash := by decide

example : LazyDataset.ignore_none_collate [(none, ""), (none, "doc")] = .crash := by decide

example : LazyDataset.ignore_none_collate [(none, ""), (none, "")] = .empty := by decide

/-- Python list subscript `l[i]` with an `int` index: non-negative indices
index from the front, indices in `[-len(l), -1]` wrap around from the back,
anything else is an `IndexError` (modelled as `none`). -/
def pyListGet {α : Type} (l : List α) (i : Int) : Option α :=
  if 0 ≤ i then l.get? i.toNat
  else if -i ≤ (l.length : Int) then l.get? (l.length - (-i).toNat)
  else none

/-- Static configuration of one `LazyDataset`: the document name (`str(pdf)`),
the page count read from `pypdf` metadata, the page list that the
`rasterize_paper` collaborator produces when invoked, and the `prepare`
collaborator applied by the inner `ImageDataset`. -/
structure LazyCfg where
  name : String
  size : Nat
  rasterize : List Image
  prepare : Image → Image

/-- Mutable state of one `LazyDataset` object: `self.dataset` (the materialized
`ImageDataset`, `None` before first materialization) plus a ghost counter of
how many times `self.init_fn()` (rasterization) has run. -/
structure LazyState where
  dataset : Option (List Image)
  rcount : Nat
deriving DecidableEq

/-- `ImageDataset.__getitem__`: `Image.open(self.img_list[idx])` then
`prepare`, with every exception caught and turned into `None`; in particular
an out-of-range index returns `None` rather than raising. -/
def ImageDataset.getitem (imgs : List Image) (prepare : Image → Image) (idx : Int) :
    Option Image :=
  (pyListGet imgs idx).map prepare

namespace LazyDataset

/-- `LazyDataset.__getitem__(i)`: re-materialize when `i == 0` or
`self.dataset is None`; serve `(self.dataset[i], name-or-empty)` when
`0 <= i <= self.size` (note the inclusive upper bound in the source), raise
`IndexError` (`Except.error ()`) otherwise. Returns the result together with
the updated object state. -/
def getitem (cfg : LazyCfg) (st : LazyState) (i : Int) :
    Except Unit (Option Image × String) × LazyState :=
  let st1 : LazyState :=
    if i = 0 ∨ st.dataset = none then ⟨some cfg.rasterize, st.rcount + 1⟩ else st
  if i ≤ (cfg.size : Int) ∧ 0 ≤ i then
    (.ok (ImageDataset.getitem (st1.dataset.getD []) cfg.prepare i,
          if i = (cfg.size : Int) - 1 then cfg.name else ""), st1)
  else (.error (), st1)

/-- Run a sequence of `__getitem__` calls on one `LazyDataset` object,
threading its state. -/
def run (cfg : LazyCfg) : LazyState → List Int → LazyState
  | st, [] => st
  | st, i :: is => run cfg (getitem cfg st i).2 is

end LazyDataset

/-- Concrete one-page configuration used in witnesses and counterexamples. -/
def lazyCfg0 : LazyCfg := ⟨"doc.pdf", 1, [[5]], fun v => v⟩

example : (LazyDataset.run lazyCfg0 ⟨none, 0⟩ [0, 0]).rcount = 2 := by decide
example : (LazyDataset.run lazyCfg0 ⟨none, 0⟩ [0, 1, 0]).rcount = 2 := by decide
example : (LazyDataset.getitem lazyCfg0 ⟨none, 0⟩ 1).1 = .ok (none, "") := rfl
example : (LazyDataset.getitem lazyCfg0 ⟨none, 0⟩ 0).1 = .ok (some [5], "doc.pdf") := rfl
example : (LazyDataset.getitem lazyCfg0 ⟨none, 0⟩ (-1)).1 = .error () := rfl
example : (LazyDataset.getitem lazyCfg0 ⟨none, 0⟩ 2).1 = .error () := rfl

/-- A produced record sample of `SciPDFDataset.__getitem__`:
`{"image": img, "ground_truth": data.pop("markdown"), "meta": data}`. -/
structure Sample where
  image : Image
  ground_truth : String
  meta : List (String × String)
deriving DecidableEq

/-- Outcome of `SciPDFDataset.__getitem__`: an uncaught `IndexError` from
`self.seek_map[index]`, an uncaught `KeyError` from `data.pop(...)` on a
parsed dict lacking the key, the `empty_sample` sentinel (`None`), or a
sample. -/
inductive StoreResult
  | indexError
  | keyError
  | sentinel
  | sample (s : Sample)
deriving DecidableEq

/-- Environment of one `SciPDFDataset`: the loaded seek map, the backing
record file (as the line found at a given byte offset), and the external
collaborators: `orjson.loads` (as parse into an association list of string
fields), the filesystem root prefix, `Path.exists` and `Image.open`. -/
structure StoreEnv where
  seek_map : List Nat
  readLine : Nat → String
  parse : String → Option (List (String × String))
  root : String
  imageExists : String → Bool
  decodeImage : String → Option Image

/-- `dict.pop(key)` on an association list: the value and the dict without
that key, or `none` (KeyError) when the key is absent. -/
def popKey : List (String × String) → String → Option (String × List (String × String))
  | [], _ => none
  | (k, v) :: rest, key =>
    if k = key then some (v, rest)
    else
      match popKey rest key with
      | some (v1, rest1) => some (v1, (k, v) :: rest1)
      | none => none

namespace SciPDFDataset

/-- The part of `SciPDFDataset.__getitem__` after the seek-map lookup: seek
to the byte offset, read one line, parse it (parse failure yields the
sentinel), pop the image path, check existence and decodability (failures
yield the sentinel), and build the sample with `markdown` popped out of the
remaining metadata. -/
def getitemAt (env : StoreEnv) (position : Nat) : StoreResult :=
  match env.parse (env.readLine position) with
    | none => .sentinel
    | some data =>
      match popKey data "image" with
      | none => .keyError
      | some (imgRef, data1) =>
        let img_path := env.root ++ imgRef
        if env.imageExists img_path then
          match env.decodeImage img_path with
          | none => .sentinel
          | some img =>
            match popKey data1 "markdown" with
            | none => .keyError
            | some (md, meta) => .sample ⟨img, md, meta⟩
        else .sentinel

/-- `SciPDFDataset.__getitem__(index)`: `self.seek_map[index]` with Python
list semantics (an out-of-range index raises IndexError), then process the
record line found at that byte offset. -/
def getitem (env : StoreEnv) (index : Int) : StoreResult :=
  match pyListGet env.seek_map index with
  | none => .indexError
  | some position => getitemAt env position

end SciPDFDataset

/-- The condition under which the body of `SciPDFDataset.__getitem__` at byte
offset `position` takes one of the three sentinel exits: the line does not
parse, or the referenced image file is missing, or it exists but cannot be
decoded. -/
def recordFails (env : StoreEnv) (position : Nat) : Bool :=
  match env.parse (env.readLine position) with
  | none => true
  | some data =>
    match popKey data "image" with
    | none => false
    | some (imgRef, _) =>
      let p := env.root ++ imgRef
      if env.imageExists p then (env.decodeImage p).isNone else true

/-- Concrete store used in witnesses and counterexamples: two records, the
one at offset 0 malformed, the one at offset 10 well-formed. -/
def wEnv : StoreEnv where
  seek_map := [0, 10]
  readLine := fun p => if p = 0 then "bad" else "good"
  parse := fun s => if s = "good" then some [("image", "img1"), ("markdown", "text")] else none
  root := "r/"
  imageExists := fun p => p == "r/img1"
  decodeImage := fun p => if p = "r/img1" then some [7] else none

/-- `wEnv` with a different corrupt line at offset 0 and everything else
unchanged. -/
def wEnv2 : StoreEnv := { wEnv with readLine := fun p => if p = 0 then "worse" else "good" }

example : SciPDFDataset.getitem wEnv 0 = .sentinel := by decide
example : SciPDFDataset.getitem wEnv 1 = .sample ⟨[7], "text", []⟩ := by decide
example : SciPDFDataset.getitem wEnv (-1) = .sample ⟨[7], "text", []⟩ := by decide
example : SciPDFDataset.getitem wEnv 2 = .indexError := by decide
example : SciPDFDataset.getitem wEnv (-3) = .indexError := by decide


/-- A sample dict as produced by the list-backed store (`CustomDataset`):
`{"image": ..., "ground_truth": ..., "meta": ...}`. The image slot is an
`Option` to mirror the `sample["image"] is None` check in the adapter. -/
structure NSample where
  image : Option Image
  ground_truth : String
  meta : List (String × String)
deriving DecidableEq

/-- One round decision of the token-perturbation loop, as drawn from Python's
`random`: the `random.random() < 0.1` coin, the position drawn by
`random.randint(1, unpadded_length - 2)` and the token drawn by
`random.randint(23, len(tokenizer) - 1)`. -/
abbrev PerturbDraw := Bool × Nat × Nat

/-- The `while random.random() < 0.1` perturbation loop of
`NougatDataset.__getitem__`, driven by an oracle stream of draws. A draw with
a false coin ends the loop; `random.randint` raises `ValueError` (breaking
the loop) when its range is empty, i.e. when `unpadded_length - 2 < 1` or
`len(tokenizer) - 1 < 23`; otherwise the drawn position is overwritten with
the drawn token. -/
def perturbLoop (vocab unpadded : Nat) : List PerturbDraw → List Nat → List Nat
  | [], ids => ids
  | (c, pos, tok) :: rest, ids =>
    if c then
      if unpadded < 3 ∨ vocab < 24 then ids
      else perturbLoop vocab unpadded rest (ids.set pos tok)
    else ids

/-- Environment of one `NougatDataset` (the training-sample adapter): the
backing list-backed store as a map from index to its (possibly `None`)
sample, the dataset length computed at construction, the split, the
`NOUGAT_PERTURB` flag, and the external collaborators
`model.encoder.prepare_input`, `model.decoder.tokenizer` (as a map from text
to the fixed-length `(input_ids, attention_mask)` pair) and the tokenizer's
vocabulary size `len(tokenizer)`. -/
structure NougatEnv where
  store : Nat → Option NSample
  length : Nat
  split : String
  perturbFlag : Bool
  prepareInput : Image → Bool → List Int
  tokenize : String → List Nat × List Nat
  vocab : Nat

namespace NougatDataset

/-- `NougatDataset.__getitem__(idx)`: fetch the sample; on the sentinel
(`None`) recurse at `self[random.randint(0, self.dataset_length - 1)]`, the
drawn index being the head of the oracle stream `rng`; otherwise build
`(input_tensor, input_ids, attention_mask)`, with the image tensor absent
when the image is absent or has zero area, and the perturbation loop applied
only for the train split with the flag on. `fuel` bounds the unbounded
recursion of the source; `none` is returned only when fuel or the oracle
stream runs out. -/
def getitem (env : NougatEnv) :
    Nat → List Nat → List PerturbDraw → Nat →
    Option (Option (List Int) × List Nat × List Nat)
  | 0, _, _, _ => none
  | fuel + 1, rng, draws, idx =>
    match env.store idx with
    | none =>
      match rng with
      | [] => none
      | r :: rng1 => getitem env fuel rng1 draws r
    | some sample =>
      let input_tensor : Option (List Int) :=
        match sample.image with
        | none => none
        | some img =>
          if img.length = 0 then none
          else some (env.prepareInput img (env.split == "train"))
      let tok := env.tokenize sample.ground_truth
      let input_ids :=
        if env.split == "train" && env.perturbFlag then
          perturbLoop env.vocab tok.2.sum draws tok.1
        else tok.1
      some (input_tensor, input_ids, tok.2)

end NougatDataset

namespace CustomDataset

/-- `CustomDataset.__len__`: the image list's length for the train split,
`0` for every other split. -/
def len (img_list : List String) (split : String) : Nat :=
  if split = "train" then img_list.length else 0

end CustomDataset

/-- `NougatDataset.__init__` builds a `CustomDataset` for its split and stores
`self.dataset_length = len(self.dataset)`. -/
def NougatDataset.dataset_length (img_list : List String) (split : String) : Nat :=
  CustomDataset.len img_list split

/-- Concrete adapter environment used in the witness: index 0 is a corrupt
record (sentinel), index 1 a valid one. -/
def nEnv : NougatEnv where
  store := fun i => if i = 0 then none else some ⟨some [1], "gt", []⟩
  length := 2
  split := "train"
  perturbFlag := false
  prepareInput := fun img _ => img
  tokenize := fun _ => ([1, 2], [1, 1])
  vocab := 30

example : NougatDataset.getitem nEnv 2 [1] [] 0 = some (some [1], [1, 2], [1, 1]) := rfl
example : NougatDataset.getitem nEnv 2 [1] [] 0 = NougatDataset.getitem nEnv 1 [] [] 1 := rfl
example : CustomDataset.len ["a", "b"] "validation" = 0 := by decide
example : NougatDataset.dataset_length ["a", "b"] "test" = 0 := by decide

/-! ## Lemmas about the collate loop -/

theorem exceptBind_ok {ε α β : Type} (a : α) (f : α → Except ε β) :
    (Except.ok (ε := ε) a).bind f = f a := rfl

theorem exceptBind_error {ε α β : Type} (e : ε) (f : α → Except ε β) :
    (Except.error (α := α) e).bind f = (Except.error e : Except ε β) := rfl

theorem collateGo_nil (full : List BatchItem) (i : Nat) (acc : List (Image × String)) :
    LazyDataset.collateGo full i [] acc = .ok acc := rfl

theorem collateGo_cons (full : List BatchItem) (i : Nat) (x : BatchItem)
    (xs : List BatchItem) (acc : List (Image × String)) :
    LazyDataset.collateGo full i (x :: xs) acc =
      (LazyDataset.collateStep full i x acc).bind (LazyDataset.collateGo full (i + 1) xs) := by
  simp only [LazyDataset.collateGo]
  cases LazyDataset.collateStep full i x acc <;> rfl

theorem collateGo_append (full : List BatchItem) (xs : List BatchItem) (x : BatchItem)
    (i : Nat) (acc : List (Image × String)) :
    LazyDataset.collateGo full i (xs ++ [x]) acc =
      (LazyDataset.collateGo full i xs acc).bind
        (LazyDataset.collateStep full (i + xs.length) x) := by
  induction xs generalizing i acc with
  | nil =>
    simp only [List.nil_append, List.length_nil, Nat.add_zero, collateGo_cons, collateGo_nil,
      exceptBind_ok]
    cases LazyDataset.collateStep full i x acc with
    | error e => rfl
    | ok a => rfl
  | cons y ys ih =>
    simp only [List.cons_append, collateGo_cons]
    cases LazyDataset.collateStep full i y acc with
    | error e => rfl
    | ok a =>
      have h2 : i + (y :: ys).length = i + 1 + ys.length := by
        rw [List.length_cons]
        omega
      rw [exceptBind_ok, exceptBind_ok, ih, h2]

theorem collateUpTo_succ {full : List BatchItem} {i : Nat} {x : BatchItem}
    (hx : full.get? i = some x) :
    LazyDataset.collateUpTo full (i + 1) =
      (LazyDataset.collateUpTo full i).bind (LazyDataset.collateStep full i x) := by
  have hi : i < full.length := by
    rcases List.get?_eq_some.mp hx with ⟨h, _⟩
    exact h
  unfold LazyDataset.collateUpTo
  have hlen : (full.take i).length = i := by
    rw [List.length_take]
    exact Nat.min_eq_left (Nat.le_of_lt hi)
  rw [List.take_succ, ← List.get?_eq_getElem?, hx,
    show (some x).toList = [x] from rfl, collateGo_append, hlen, Nat.zero_add]

theorem collateStep_ne_nil {full : List BatchItem} {i : Nat} {x : BatchItem}
    {acc acc1 : List (Image × String)}
    (h : LazyDataset.collateStep full i x acc = .ok acc1)
    (hne : acc ≠ [] ∨ x.1.isSome) : acc1 ≠ [] := by
  obtain ⟨oimg, name⟩ := x
  cases oimg with
  | some img =>
    simp only [LazyDataset.collateStep, Except.ok.injEq] at h
    subst h
    simp
  | none =>
    simp only [LazyDataset.collateStep] at h
    have hacc : acc ≠ [] := by
      rcases hne with h1 | h1
      · exact h1
      · simp at h1
    split at h
    · exact Except.ok.inj h ▸ hacc
    · split at h
      · cases hl : acc.getLast? with
        | none => rw [hl] at h; exact absurd h (by simp)
        | some last => rw [hl] at h; exact Except.ok.inj h ▸ (by simp)
      · split at h
        · cases hg : full.get? 1 with
          | none => rw [hg] at h; exact absurd h (by simp)
          | some y =>
            obtain ⟨oy, sy⟩ := y
            cases oy with
            | none => rw [hg] at h; exact absurd h (by simp)
            | some imgy => rw [hg] at h; exact Except.ok.inj h ▸ (by simp)
        · exact Except.ok.inj h ▸ hacc

theorem collateGo_ne_nil {full : List BatchItem} :
    ∀ (xs : List BatchItem) (i : Nat) (acc acc1 : List (Image × String)),
      LazyDataset.collateGo full i xs acc = .ok acc1 →
      (acc ≠ [] ∨ ∃ x ∈ xs, x.1.isSome) → acc1 ≠ [] := by
  intro xs
  induction xs with
  | nil =>
    intro i acc acc1 h hne
    rw [collateGo_nil] at h
    cases Except.ok.inj h
    rcases hne with h1 | h1
    · exact h1
    · obtain ⟨x, hx, _⟩ := h1
      exact absurd hx (List.not_mem_nil x)
  | cons y ys ih =>
    intro i acc acc1 h hne
    rw [collateGo_cons] at h
    cases hs : LazyDataset.collateStep full i y acc with
    | error e => rw [hs, exceptBind_error] at h; exact absurd h (by simp)
    | ok a1 =>
      rw [hs, exceptBind_ok] at h
      by_cases hy : acc ≠ [] ∨ y.1.isSome
      · exact ih (i + 1) a1 acc1 h (Or.inl (collateStep_ne_nil hs hy))
      · push_neg at hy
        rcases hne with h1 | h1
        · exact absurd hy.1 h1
        · obtain ⟨x, hx, hxs⟩ := h1
          rcases List.mem_cons.mp hx with rfl | hx2
          · exact absurd hxs (by simp [hy.2])
          · exact ih (i + 1) a1 acc1 h (Or.inr ⟨x, hx2, hxs⟩)

/-! ## Claims about the batch assembler -/

/-- Claim C1: in `LazyDataset.ignore_none_collate`, a name-bearing item
(image absent, name non-empty) that is preceded by a valid item in the
filtered output attaches its name to the last slot of the filtered output so
far (replacing that slot's name) and contributes no slot of its own; in
particular `[(imgA, ""), (none, "doc1"), (imgB, "")]` collates to the
two-item batch `[(imgA, "doc1"), (imgB, "")]`. -/
theorem C1_name_attaches_to_last_filtered_slot :
    (∀ (batch : List BatchItem) (i : Nat) (name : String) (acc : List (Image × String)),
      batch.get? i = some (none, name) → name ≠ "" →
      (∃ j, j < i ∧ ∃ img s, batch.get? j = some (some img, s)) →
      LazyDataset.collateUpTo batch i = .ok acc →
      acc ≠ [] ∧
      LazyDataset.collateUpTo batch (i + 1) =
        .ok (LazyDataset.replaceLastName acc name) ∧
      (LazyDataset.replaceLastName acc name).length = acc.length) ∧
    LazyDataset.ignore_none_collate [(some [1], ""), (none, "doc1"), (some [2], "")] =
      .batch [([1], "doc1"), ([2], "")] := by
  constructor
  · intro batch i name acc hget hname hex hok
    obtain ⟨j, hji, img, s, hjget⟩ := hex
    have hpos : 0 < i := Nat.pos_of_ne_zero (by rintro rfl; exact Nat.not_lt_zero j hji)
    have hmem : ((some img : Option Image), s) ∈ batch.take i := by
      have : (batch.take i).get? j = some (some img, s) := by
        rw [List.get?_take hji]
        exact hjget
      exact List.get?_mem this
    have haccne : acc ≠ [] :=
      collateGo_ne_nil (batch.take i) 0 [] acc hok (Or.inr ⟨_, hmem, rfl⟩)
    obtain ⟨last, hlast⟩ := Option.isSome_iff_exists.mp
      (List.getLast?_isSome.mpr haccne)
    have hrepl : LazyDataset.replaceLastName acc name = acc.dropLast ++ [(last.1, name)] := by
      rw [LazyDataset.replaceLastName, hlast]
      rfl
    have hstep : LazyDataset.collateStep batch i (none, name) acc =
        .ok (LazyDataset.replaceLastName acc name) := by
      rw [LazyDataset.collateStep, if_neg hname, if_pos hpos, hlast, hrepl]
    refine ⟨haccne, ?_, ?_⟩
    · rw [collateUpTo_succ hget, hok, exceptBind_ok, hstep]
    · rw [hrepl, List.length_append, List.length_dropLast]
      have := List.length_pos.mpr haccne
      simp only [List.length_cons, List.length_nil]
      omega
  · decide

/-- Witness for C1: the general part applied to the batch
`[(imgA, ""), (none, "doc1"), (imgB, "")]` at the name-bearing position 1,
whose filtered output so far is `[(imgA, "")]`. -/
theorem C1_witness :
    [(([1] : Image), "")] ≠ [] ∧
    LazyDataset.collateUpTo [(some [1], ""), (none, "doc1"), (some [2], "")] (1 + 1) =
      .ok (LazyDataset.replaceLastName [([1], "")] "doc1") ∧
    (LazyDataset.replaceLastName [([1], "")] "doc1").length = [(([1] : Image), "")].length :=
  C1_name_attaches_to_last_filtered_slot.1
    [(some [1], ""), (none, "doc1"), (some [2], "")] 1 "doc1" [([1], "")]
    (by decide) (by decide) ⟨0, Nat.zero_lt_one, [1], "", by decide⟩ rfl

/-- Counterexample to claim C2: in
`[(none, ""), (none, "doc1"), (imgB, "")]` the name-bearing item has no
valid item preceding it in the filtered output and the batch has other raw
items, so the claim requires a synthesized zero-image placeholder; the code
instead takes the `i > 0` branch, evaluates `_batch[-1]` on the empty
accumulator, and raises an uncaught IndexError. -/
theorem C2_counterexample :
    LazyDataset.ignore_none_collate [(none, ""), (none, "doc1"), (some [2], "")] =
      .crash := by decide

/-- Claim C2 (amended): the zero-image placeholder is synthesized only when
the name-bearing item with no valid predecessor sits at raw position 0; the
placeholder's image is a zeroed copy of the second raw item's image (which
must itself be present), and it is appended as the first filtered slot; in
particular `[(none, "doc1"), (imgB, "")]` collates to
`[(zeros_like(imgB), "doc1"), (imgB, "")]`. A name-bearing item at a later
raw position with no valid predecessor instead crashes with an IndexError
(see the counterexample). -/
theorem C2_zero_placeholder_only_at_head :
    (∀ (name s1 : String) (img1 : Image) (rest : List BatchItem), name ≠ "" →
      LazyDataset.collateUpTo ((none, name) :: (some img1, s1) :: rest) 1 =
        .ok [(img1.map (fun v => v * 0), name)]) ∧
    LazyDataset.ignore_none_collate [(none, "doc1"), (some [2], "")] =
      .batch [([0], "doc1"), ([2], "")] := by
  constructor
  · intro name s1 img1 rest hname
    have hlen : 1 < ((none, name) :: (some img1, s1) :: rest : List BatchItem).length := by
      simp only [List.length_cons]
      omega
    rw [LazyDataset.collateUpTo,
      show ((none, name) :: (some img1, s1) :: rest : List BatchItem).take 1 =
        [((none : Option Image), name)] from rfl,
      collateGo_cons, LazyDataset.collateStep, if_neg hname, if_neg (Nat.lt_irrefl 0),
      if_pos hlen]
    rfl
  · decide

/-- Witness for C2 (amended): the placeholder branch applied to
`[(none, "doc1"), (imgB, "")]` with `imgB = [2]`. -/
theorem C2_witness :
    LazyDataset.collateUpTo [(none, "doc1"), (some [2], "")] 1 =
      .ok [(([2] : Image).map (fun v => v * 0), "doc1")] :=
  C2_zero_placeholder_only_at_head.1 "doc1" "" [2] [] (by decide)

/-- Counterexample to claim C9: in the batch `[(none, ""), (none, "doc")]`
every item's image is absent, so the claim requires the empty-batch signal;
the code instead reaches the name-bearing item at position 1, evaluates
`_batch[-1]` on the empty accumulator, and raises an uncaught IndexError. -/
theorem C9_counterexample :
    LazyDataset.ignore_none_collate [(none, ""), (none, "doc")] = .crash := by decide

/-- Claim C9 (amended): when every item of the input batch is unusable and
nameless (image absent and name empty), `ignore_none_collate` returns the
distinct empty-batch signal `(None, None)` rather than a batch or an
exception; an all-image-absent batch that carries a non-empty name may crash
instead (see the counterexample). -/
theorem C9_all_blank_items_give_empty_signal :
    ∀ (batch : List BatchItem), (∀ x ∈ batch, x = (none, "")) →
      LazyDataset.ignore_none_collate batch = .empty := by
  intro batch h
  have hgo : ∀ (xs : List BatchItem), (∀ x ∈ xs, x = ((none : Option Image), "")) →
      ∀ (i : Nat) (acc : List (Image × String)),
        LazyDataset.collateGo batch i xs acc = .ok acc := by
    intro xs
    induction xs with
    | nil => intro _ i acc; rfl
    | cons y ys ih =>
      intro hy i acc
      have hy0 : y = ((none : Option Image), "") := hy y (List.mem_cons_self y ys)
      subst hy0
      rw [collateGo_cons, LazyDataset.collateStep]
      rw [if_pos rfl, exceptBind_ok]
      exact ih (fun x hx => hy x (List.mem_cons_of_mem _ hx)) (i + 1) acc
  rw [LazyDataset.ignore_none_collate, hgo batch h 0 []]

/-- Witness for C9 (amended): a two-item batch of blank items collates to the
empty-batch signal. -/
theorem C9_witness :
    LazyDataset.ignore_none_collate [(none, ""), (none, "")] = .empty :=
  C9_all_blank_items_give_empty_signal [(none, ""), (none, "")] (by decide)

/-! ## Claims about the lazy paged dataset -/

theorem lazy_getitem_snd_some (cfg : LazyCfg) (ds : List Image) (c : Nat) (i : Int) :
    (LazyDataset.getitem cfg ⟨some ds, c⟩ i).2 =
      if i = 0 then ⟨some cfg.rasterize, c + 1⟩ else ⟨some ds, c⟩ := by
  rw [LazyDataset.getitem]
  by_cases h : i = 0
  · simp [h]
  · simp only [h, or_false, if_neg h, reduceCtorEq, if_false]
    split <;> rfl

theorem lazy_run_some (cfg : LazyCfg) :
    ∀ (is : List Int) (ds : List Image) (c : Nat),
      (LazyDataset.run cfg ⟨some ds, c⟩ is).rcount = c + is.count 0 := by
  intro is
  induction is with
  | nil => intro ds c; simp [LazyDataset.run, List.count_nil]
  | cons i tl ih =>
    intro ds c
    rw [LazyDataset.run, lazy_getitem_snd_some]
    by_cases h : i = 0
    · rw [if_pos h, ih]
      simp [List.count_cons, h]
      omega
    · rw [if_neg h, ih]
      simp [List.count_cons, h]

/-- Counterexample to claim C3: on a one-page document, the in-range access
sequence `get(0); get(0)` rasterizes twice (the condition in the source is
`i == 0 or self.dataset is None`, so every access of index 0
re-materializes), contradicting materialization occurring exactly once
regardless of access order. -/
theorem C3_counterexample :
    (LazyDataset.run lazyCfg0 ⟨none, 0⟩ [0, 0]).rcount = 2 := by decide

/-- Claim C3 (amended): for one `LazyDataset` object, rasterization runs on
the first access and again on every later access of index 0: over any
non-empty access sequence it runs once per access of index 0, plus once more
when the first access is not index 0; an access of an index other than 0 in
the materialized state reuses the cached page set and leaves the state (and
the rasterization count) unchanged. -/
theorem C3_materialization_per_index_zero_access :
    (∀ (cfg : LazyCfg) (i0 : Int) (is : List Int),
      (LazyDataset.run cfg ⟨none, 0⟩ (i0 :: is)).rcount =
        (i0 :: is).count 0 + (if i0 = 0 then 0 else 1)) ∧
    (∀ (cfg : LazyCfg) (ds : List Image) (c : Nat) (i : Int), i ≠ 0 →
      (LazyDataset.getitem cfg ⟨some ds, c⟩ i).2 = ⟨some ds, c⟩) := by
  constructor
  · intro cfg i0 is
    have hsnd : (LazyDataset.getitem cfg ⟨none, 0⟩ i0).2 = ⟨some cfg.rasterize, 1⟩ := by
      rw [LazyDataset.getitem]
      simp only [or_true]
      split <;> rfl
    rw [LazyDataset.run, hsnd, lazy_run_some]
    by_cases h : i0 = 0 <;> simp [List.count_cons, h] <;> omega
  · intro cfg ds c i h
    rw [lazy_getitem_snd_some, if_neg h]

/-- Witness for C3 (amended): the access sequence `get(0); get(1)` on a
one-page document rasterizes exactly once, and a repeated `get(1)` in the
materialized state leaves the state unchanged. -/
theorem C3_witness :
    (LazyDataset.run lazyCfg0 ⟨none, 0⟩ ((0 : Int) :: [1])).rcount =
      ((0 : Int) :: [1]).count 0 + (if (0 : Int) = 0 then 0 else 1) ∧
    (LazyDataset.getitem lazyCfg0 ⟨some [[5]], 3⟩ 1).2 = ⟨some [[5]], 3⟩ :=
  ⟨C3_materialization_per_index_zero_access.1 lazyCfg0 0 [1],
   C3_materialization_per_index_zero_access.2 lazyCfg0 [[5]] 3 1 (by decide)⟩

/-- Counterexample to claim C4: on a one-page `LazyDataset` (`length() = 1`),
`get(1)` — i.e. `get(length())`, outside `[0, length())` — does not raise:
the range check in the source is `i <= self.size`, the inner
`ImageDataset.__getitem__` swallows its own IndexError, and the call returns
`(None, "")`. -/
theorem C4_counterexample :
    (LazyDataset.getitem lazyCfg0 ⟨none, 0⟩ 1).1 = .ok (none, "") := rfl

/-- Claim C4 (amended): `LazyDataset.__getitem__(i)` raises an IndexError
exactly for `i < 0` or `i > length()`; the boundary access `get(length())`
does not raise but returns `(None, "")` (the inner image lookup catches its
own IndexError and yields a missing image with an empty name). Stated for
any reachable state — the page cache is either unmaterialized or holds the
rasterized pages — with the rasterizer producing `length()` pages. -/
theorem C4_index_error_only_beyond_size (cfg : LazyCfg) (st : LazyState)
    (hlen : cfg.rasterize.length = cfg.size)
    (hst : st.dataset = none ∨ st.dataset = some cfg.rasterize) :
    (∀ i : Int, i < 0 ∨ (cfg.size : Int) < i → (LazyDataset.getitem cfg st i).1 = .error ()) ∧
    (LazyDataset.getitem cfg st (cfg.size : Int)).1 = .ok (none, "") := by
  constructor
  · intro i hi
    have hcond : ¬(i ≤ (cfg.size : Int) ∧ 0 ≤ i) := by omega
    rw [LazyDataset.getitem]
    simp only [if_neg hcond]
  · have hds : (if (cfg.size : Int) = 0 ∨ st.dataset = none
        then (⟨some cfg.rasterize, st.rcount + 1⟩ : LazyState) else st).dataset =
        some cfg.rasterize := by
      rcases hst with h | h <;> split <;> simp_all
    have hcond : (cfg.size : Int) ≤ (cfg.size : Int) ∧ 0 ≤ (cfg.size : Int) :=
      ⟨le_refl _, Int.natCast_nonneg _⟩
    rw [LazyDataset.getitem]
    simp only [if_pos hcond, hds]
    have himg : ImageDataset.getitem cfg.rasterize cfg.prepare (cfg.size : Int) = none := by
      rw [ImageDataset.getitem, pyListGet]
      rw [if_pos (Int.natCast_nonneg _), Int.toNat_natCast]
      rw [List.get?_eq_none.mpr (le_of_eq hlen)]
      rfl
    have hname : ¬((cfg.size : Int) = (cfg.size : Int) - 1) := by omega
    simp only [Option.getD_some, himg, if_neg hname]

/-- Witness for C4 (amended): on the one-page configuration, `get(-1)` raises
and `get(1)` (the size boundary) returns `(None, "")`. -/
theorem C4_witness :
    (LazyDataset.getitem lazyCfg0 ⟨none, 0⟩ (-1)).1 = .error () ∧
    (LazyDataset.getitem lazyCfg0 ⟨none, 0⟩ ((lazyCfg0.size : Nat) : Int)).1 = .ok (none, "") :=
  ⟨(C4_index_error_only_beyond_size lazyCfg0 ⟨none, 0⟩ (by decide) (Or.inl rfl)).1 (-1)
      (by decide),
   (C4_index_error_only_beyond_size lazyCfg0 ⟨none, 0⟩ (by decide) (Or.inl rfl)).2⟩

/-- Claim C5: for every in-range page index `i` of a `LazyDataset` with a
non-empty document name, `get(i)` succeeds and the name component of the
returned pair is the document name itself when `i` is the last page index
`length() - 1` and the empty string for every other in-range `i`; hence it
is non-empty exactly at the last page index. -/
theorem C5_last_page_carries_document_name (cfg : LazyCfg) (st : LazyState) (i : Int)
    (hname : cfg.name ≠ "") (h0 : 0 ≤ i) (h1 : i < (cfg.size : Int)) :
    ∃ p, (LazyDataset.getitem cfg st i).1 = .ok p ∧
      p.2 = (if i = (cfg.size : Int) - 1 then cfg.name else "") ∧
      (p.2 ≠ "" ↔ i = (cfg.size : Int) - 1) := by
  have hcond : i ≤ (cfg.size : Int) ∧ 0 ≤ i := ⟨by omega, h0⟩
  rw [LazyDataset.getitem]
  simp only [if_pos hcond]
  refine ⟨_, rfl, rfl, ?_⟩
  by_cases h : i = (cfg.size : Int) - 1
  · simp [h, hname]
  · simp [h]

/-- Witness for C5: on the one-page configuration `get(0)` is the last page,
so its name component is exactly the document name `"doc.pdf"`. -/
theorem C5_witness :
    ∃ p, (LazyDataset.getitem lazyCfg0 ⟨none, 0⟩ 0).1 = .ok p ∧
      p.2 = (if (0 : Int) = ((lazyCfg0.size : Nat) : Int) - 1 then lazyCfg0.name else "") ∧
      (p.2 ≠ "" ↔ (0 : Int) = ((lazyCfg0.size : Nat) : Int) - 1) :=
  C5_last_page_carries_document_name lazyCfg0 ⟨none, 0⟩ 0 (by decide) (by decide) (by decide)

/-! ## Claims about the seek-indexed record store -/

theorem pyListGet_natCast {α : Type} (l : List α) (j : Nat) :
    pyListGet l (j : Int) = l.get? j := by
  rw [pyListGet, if_pos (Int.natCast_nonneg j), Int.toNat_natCast]

theorem pyListGet_out {α : Type} (l : List α) (i : Int)
    (h : (l.length : Int) ≤ i ∨ i < -(l.length : Int)) : pyListGet l i = none := by
  rw [pyListGet]
  rcases h with h | h
  · rw [if_pos (by omega)]
    apply List.get?_eq_none.mpr
    omega
  · rw [if_neg (by omega), if_neg (by omega)]

theorem pyListGet_neg {α : Type} (l : List α) (i : Int)
    (h1 : -(l.length : Int) ≤ i) (h2 : i < 0) :
    pyListGet l i = pyListGet l ((l.length : Int) + i) := by
  rw [pyListGet, pyListGet, if_neg (by omega), if_pos (by omega), if_pos (by omega)]
  congr 1
  omega

theorem getitemAt_sentinel_of_fails (env : StoreEnv) (pos : Nat)
    (h : recordFails env pos = true) : SciPDFDataset.getitemAt env pos = .sentinel := by
  rw [SciPDFDataset.getitemAt]
  rw [recordFails] at h
  split at h
  · rfl
  · split at h
    · exact absurd h (by simp)
    · rename_i imgRef rest heq2
      simp only at h ⊢
      by_cases he : env.imageExists (env.root ++ imgRef)
      · rw [if_pos he] at h ⊢
        rw [Option.isNone_iff_eq_none] at h
        rw [h]
      · rw [if_neg he]

/-- Claim C6: for an in-range index whose record line fails to parse, or
whose resolved image file is missing or cannot be decoded,
`SciPDFDataset.__getitem__` returns the empty-sample sentinel and does not
raise; the failure is isolated to that index: any other index whose byte
offset is different returns exactly the same result whether or not the bad
line is corrupt (stated by varying the backing file only at the bad
offset). -/
theorem C6_record_failure_sentinel_and_isolated :
    (∀ (env : StoreEnv) (i pos : Nat),
      env.seek_map.get? i = some pos → recordFails env pos = true →
      SciPDFDataset.getitem env (i : Int) = .sentinel) ∧
    (∀ (env env2 : StoreEnv) (posi j posj : Nat),
      env2.seek_map = env.seek_map → env2.parse = env.parse → env2.root = env.root →
      env2.imageExists = env.imageExists → env2.decodeImage = env.decodeImage →
      (∀ p, p ≠ posi → env2.readLine p = env.readLine p) →
      env.seek_map.get? j = some posj → posj ≠ posi →
      SciPDFDataset.getitem env2 (j : Int) = SciPDFDataset.getitem env (j : Int)) := by
  constructor
  · intro env i pos hseek hfail
    rw [SciPDFDataset.getitem, pyListGet_natCast, hseek]
    exact getitemAt_sentinel_of_fails env pos hfail
  · intro env env2 posi j posj hseek hparse hroot hex hdec hread hj hne
    rw [SciPDFDataset.getitem, SciPDFDataset.getitem, pyListGet_natCast, pyListGet_natCast,
      hseek, hj]
    show SciPDFDataset.getitemAt env2 posj = SciPDFDataset.getitemAt env posj
    rw [SciPDFDataset.getitemAt, SciPDFDataset.getitemAt, hparse, hroot, hex, hdec,
      hread posj hne]

/-- Witness for C6: in the concrete store `wEnv` the record at index 0 (byte
offset 0) is malformed and yields the sentinel, and corrupting that line
differently (`wEnv2`) leaves the result at index 1 (byte offset 10)
unchanged. -/
theorem C6_witness :
    SciPDFDataset.getitem wEnv ((0 : Nat) : Int) = .sentinel ∧
    SciPDFDataset.getitem wEnv2 ((1 : Nat) : Int) = SciPDFDataset.getitem wEnv ((1 : Nat) : Int) :=
  ⟨C6_record_failure_sentinel_and_isolated.1 wEnv 0 0 (by decide) (by decide),
   C6_record_failure_sentinel_and_isolated.2 wEnv wEnv2 0 1 10 rfl rfl rfl rfl rfl
     (fun p hp => by simp [wEnv, wEnv2, hp]) (by decide) (by decide)⟩

/-- Counterexample to claim C7: `SciPDFDataset.__getitem__(-1)` on the
two-record store `wEnv` does not raise an index error: `self.seek_map[-1]`
follows Python negative-index semantics and returns the last offset, so the
call returns the last record. -/
theorem C7_counterexample :
    SciPDFDataset.getitem wEnv (-1) = .sample ⟨[7], "text", []⟩ ∧
    SciPDFDataset.getitem wEnv (-1) ≠ .indexError := by
  constructor
  · decide
  · decide

/-- Claim C7 (amended): `SciPDFDataset.__getitem__(index)` raises an index
error exactly for `index >= length()` or `index < -length()`; a negative
index in `[-length(), -1]` does not raise but wraps around, returning the
record at `length() + index` (Python list semantics of
`self.seek_map[index]`). -/
theorem C7_index_error_and_negative_wraparound (env : StoreEnv) (i : Int) :
    (((env.seek_map.length : Int) ≤ i ∨ i < -(env.seek_map.length : Int)) →
      SciPDFDataset.getitem env i = .indexError) ∧
    (-(env.seek_map.length : Int) ≤ i → i < 0 →
      SciPDFDataset.getitem env i =
        SciPDFDataset.getitem env ((env.seek_map.length : Int) + i)) := by
  constructor
  · intro h
    rw [SciPDFDataset.getitem, pyListGet_out _ _ h]
  · intro h1 h2
    rw [SciPDFDataset.getitem, SciPDFDataset.getitem, pyListGet_neg _ _ h1 h2]

/-- Witness for C7 (amended): on the two-record store `wEnv`, index 5 raises
and index -2 returns the same result as index 0. -/
theorem C7_witness :
    SciPDFDataset.getitem wEnv 5 = .indexError ∧
    SciPDFDataset.getitem wEnv (-2) =
      SciPDFDataset.getitem wEnv ((wEnv.seek_map.length : Int) + -2) :=
  ⟨(C7_index_error_and_negative_wraparound wEnv 5).1 (by decide),
   (C7_index_error_and_negative_wraparound wEnv (-2)).2 (by decide) (by decide)⟩

/-! ## Claims about the training-sample adapter -/

/-- Claim C8: when the backing store returns the empty-sample sentinel
(`None`) at `idx`, `NougatDataset.__getitem__(idx)` neither raises nor
builds a triple from the sentinel: it resamples a random index `r` drawn by
`random.randint(0, self.dataset_length - 1)` — i.e. any `r` in
`[0, length())` — and its result is exactly the result of the recursive call
`self[r]`. -/
theorem C8_sentinel_resamples_random_index (env : NougatEnv) (fuel : Nat)
    (rng : List Nat) (draws : List PerturbDraw) (idx r : Nat)
    (hs : env.store idx = none) (hr : r < env.length) :
    NougatDataset.getitem env (fuel + 1) (r :: rng) draws idx =
      NougatDataset.getitem env fuel rng draws r := by
  rw [NougatDataset.getitem, hs]

/-- Witness for C8: in the concrete adapter environment `nEnv` (corrupt
record 0, valid record 1, length 2) the call at index 0 with the oracle
drawing 1 equals the call at index 1. -/
theorem C8_witness :
    NougatDataset.getitem nEnv (1 + 1) (1 :: []) [] 0 =
      NougatDataset.getitem nEnv 1 [] [] 1 :=
  C8_sentinel_resamples_random_index nEnv 1 [] [] 0 1 rfl (by decide)

/-! ## Claim about the list-backed store -/

/-- Claim C10: for every split other than the train split, the list-backed
store `CustomDataset` reports length 0 regardless of its image list, so the
`NougatDataset` composed over it also has length 0 and an iteration over its
index range yields no samples. -/
theorem C10_non_train_split_is_empty (img_list : List String) (split : String)
    (h : split ≠ "train") :
    CustomDataset.len img_list split = 0 ∧
    NougatDataset.dataset_length img_list split = 0 ∧
    List.range (NougatDataset.dataset_length img_list split) = [] := by
  have h1 : CustomDataset.len img_list split = 0 := by
    rw [CustomDataset.len, if_neg h]
  refine ⟨h1, h1, ?_⟩
  rw [NougatDataset.dataset_length, h1]
  rfl

/-- Witness for C10: a two-image list under the validation split has length
0 at both layers, and its index range is empty. -/
theorem C10_witness :
    CustomDataset.len ["a", "b"] "validation" = 0 ∧
    NougatDataset.dataset_length ["a", "b"] "validation" = 0 ∧
    List.range (NougatDataset.dataset_length ["a", "b"] "validation") = [] :=
  C10_non_train_split_is_empty ["a", "b"] "validation" (by decide)
